import Mathlib

/-!
# wifi.h of esp8266_mqtt_sensor

The repository is one C++ header:

    #ifndef WIFI_H_
    #define WIFI_H_
    const char* ssid = "YourSSID";
    const char* password = "YourPassword";
    #endif

The header is embedded as data (its five logical lines, the two string
literals being parameters so that an operator's edit of the literals is
covered), together with the parts of the C++ translation pipeline that decide
what the header means to a consumer:

* conditional inclusion (`#ifndef` / `#define` / `#endif`) and textual
  `#include`,
* the per-unit checks on the surviving declarations (initialiser type,
  redefinition of a name),
* linkage of namespace-scope variables and the one-definition check at link
  time,
* static initialisation of the pointers to their string-literal arrays, and
  the two ways a consumer could try to change a constant (assigning to the
  name, storing through it).

The doc comments of the header are removed before preprocessing and carry no
declarations; they are not represented.

Modelling conventions:

* A string literal is taken as the sequence of characters it denotes (a Lean
  `String`); the mapping of source characters to the execution character set
  is outside the model.
* The identifiers defined before the header is reached (`env`) are only tested
  by `#ifndef`; a consumer that defines `ssid`, `password`, `const` or `char`
  as an identifier to be replaced is outside the model.
* Every unit of a binary is preprocessed on its own, starting from `env`: an
  identifier defined while preprocessing one unit is unknown in the next.
* Linkage follows C++ (the header belongs to an Arduino sketch): a
  namespace-scope variable has internal linkage exactly when its type is
  const-qualified at top level.
-/

namespace Wifi

/-! ## Data model -/

/-- The object types that occur in the header: `char` with an optional `const`,
and pointers with an optional `const` on the pointer itself. -/
inductive CType where
  | char (isConst : Bool)
  | ptr (pointee : CType) (isConst : Bool)
  deriving DecidableEq, Repr

/-- The declared type of both variables, `const char*`: a pointer that is not
itself const, to `const char`. -/
def constCharPtr : CType := .ptr (.char true) false

/-- Top-level const qualification of a type (`const` on the object itself). -/
def CType.isConst : CType → Bool
  | .char c => c
  | .ptr _ c => c

/-- A namespace-scope variable definition `ty name = "init";`. -/
structure Decl where
  ty : CType
  name : String
  init : String
  deriving DecidableEq, Repr

/-- One logical line of a source file after comment removal. -/
inductive Line where
  | ifndef (id : String)
  | define (id : String)
  | endif
  | decl (d : Decl)
  deriving DecidableEq, Repr

/-- The include-guard identifier of the header. -/
def WIFI_H_ : String := "WIFI_H_"

/-- The header `wifi.h` with `s` and `p` written as the initialisers of `ssid`
and `password`. -/
def wifi_h (s p : String) : List Line :=
  [ .ifndef WIFI_H_,
    .define WIFI_H_,
    .decl ⟨constCharPtr, "ssid", s⟩,
    .decl ⟨constCharPtr, "password", p⟩,
    .endif ]

/-- The header as shipped in the repository. -/
def shipped : List Line := wifi_h "YourSSID" "YourPassword"

/-- Build failures. -/
inductive BuildError where
  | strayEndif
  | unterminatedIf
  | badInit (name : String)
  | redefinition (name : String)
  | duplicateSymbol (name : String)
  deriving DecidableEq, Repr

/-! ## Preprocessing -/

/-- Preprocessor state: the identifiers currently defined, the stack of open
conditional groups (`true` for a group whose condition held), and the
declarations that reached the compiler so far. -/
structure PP where
  defined : List String
  conds : List Bool
  out : List Decl
  deriving DecidableEq, Repr

/-- Lines are processed only when every enclosing conditional group is taken. -/
def PP.active (st : PP) : Bool := st.conds.all (fun b => b)

/-- Process one line. -/
def ppLine (st : PP) : Line → Except BuildError PP
  | .ifndef m => .ok { st with conds := (!st.defined.contains m) :: st.conds }
  | .define m =>
      .ok (if st.active then { st with defined := m :: st.defined } else st)
  | .endif =>
      match st.conds with
      | [] => .error .strayEndif
      | _ :: cs => .ok { st with conds := cs }
  | .decl d =>
      .ok (if st.active then { st with out := st.out ++ [d] } else st)

/-- Process a sequence of lines, stopping at the first error. -/
def ppLines (st : PP) : List Line → Except BuildError PP
  | [] => .ok st
  | l :: ls =>
      match ppLine st l with
      | .error e => .error e
      | .ok st1 => ppLines st1 ls

/-- Preprocess the text of a translation unit, starting with the identifiers
`env` already defined (command line, earlier text of the unit). -/
def preprocess (env : List String) (src : List Line) : Except BuildError (List Decl) :=
  match ppLines ⟨env, [], []⟩ src with
  | .error e => .error e
  | .ok st => if st.conds.isEmpty then .ok st.out else .error .unterminatedIf

/-- The text of a unit that consists of `n` consecutive `#include "wifi.h"`
directives: each directive is replaced by the text of the header. -/
def includeTimes (hdr : List Line) : Nat → List Line
  | 0 => []
  | n + 1 => hdr ++ includeTimes hdr n

/-! ## Compilation of one unit -/

/-- A string literal has type `const char[N]`; after array-to-pointer
conversion it initialises exactly the pointers to `const char`. -/
def initOk : CType → Bool
  | .ptr (.char true) _ => true
  | _ => false

/-- The first element that occurs again later in the list. -/
def firstDup : List String → Option String
  | [] => none
  | x :: xs => if x ∈ xs then some x else firstDup xs

/-- Compile one unit: preprocess, check every initialiser against the declared
type, and reject a second definition of a name. -/
def compileUnit (env : List String) (src : List Line) : Except BuildError (List Decl) :=
  match preprocess env src with
  | .error e => .error e
  | .ok ds =>
      match ds.find? (fun d => !initOk d.ty) with
      | some d => .error (.badInit d.name)
      | none =>
          match firstDup (ds.map (fun d => d.name)) with
          | some x => .error (.redefinition x)
          | none => .ok ds

/-! ## Linking -/

/-- Linkage of a namespace-scope variable. -/
inductive Linkage where
  | internal
  | external
  deriving DecidableEq, Repr

/-- A namespace-scope variable whose type is const-qualified at top level has
internal linkage; any other has external linkage. -/
def linkage (d : Decl) : Linkage :=
  if d.ty.isConst then .internal else .external

/-- The definitions of one unit that are visible to the linker. -/
def externalOf (ds : List Decl) : List Decl :=
  ds.filter (fun d => linkage d = .external)

/-- The names defined with external linkage over all units, with repetitions. -/
def externalDefs : List (List Decl) → List String
  | [] => []
  | u :: us => (externalOf u).map (fun d => d.name) ++ externalDefs us

/-- Link the compiled units: a name with two external definitions fails. -/
def link (units : List (List Decl)) : Except BuildError (List (List Decl)) :=
  match firstDup (externalDefs units) with
  | some x => .error (.duplicateSymbol x)
  | none => .ok units

/-- Compile every unit, stopping at the first error. -/
def compileAll (env : List String) : List (List Line) → Except BuildError (List (List Decl))
  | [] => .ok []
  | u :: us =>
      match compileUnit env u with
      | .error e => .error e
      | .ok ds =>
          match compileAll env us with
          | .error e => .error e
          | .ok dss => .ok (ds :: dss)

/-- Build a binary from the source text of its units. -/
def build (env : List String) (srcs : List (List Line)) : Except BuildError (List (List Decl)) :=
  match compileAll env srcs with
  | .error e => .error e
  | .ok dss => link dss

/-- Occurrences of `x` among the external definitions of the units. -/
def externalCount (x : String) (units : List (List Decl)) : Nat :=
  (externalDefs units).count x

/-- Definitions of `x` inside one unit. -/
def defCount (x : String) (ds : List Decl) : Nat :=
  (ds.map (fun d => d.name)).count x

/-- The text of `n` units, each of which includes the header once. -/
def unitsIncluding (hdr : List Line) (n : Nat) : List (List Line) :=
  List.replicate n hdr

/-! ## Static storage and the consumer's view -/

/-- The null character that terminates a string-literal array. -/
def NUL : Char := Char.ofNat 0

/-- The array object a string literal denotes: its characters, in order,
followed by the terminating null character. -/
def litArray (s : String) : List Char := s.toList ++ [NUL]

/-- Static storage of a program: the string-literal arrays, and for every
pointer variable the index of the array whose first element it points to. -/
structure Store where
  lits : List (List Char)
  vars : List (String × Nat)
  deriving DecidableEq, Repr

/-- Static initialisation of one definition: the literal gets its array and the
variable points to it. -/
def initVar (st : Store) (d : Decl) : Store :=
  ⟨st.lits ++ [litArray d.init], st.vars ++ [(d.name, st.lits.length)]⟩

/-- Static initialisation of the definitions of a unit, in order. -/
def load (ds : List Decl) : Store := ds.foldl initVar ⟨[], []⟩

/-- The array a pointer variable points to. -/
def Store.target (st : Store) (x : String) : Option (List Char) :=
  match st.vars.lookup x with
  | none => none
  | some k => st.lits[k]?

/-- Reading an array as a C string: the characters before the first null. -/
def cstr (a : List Char) : String := ⟨a.takeWhile (fun c => c ≠ NUL)⟩

/-- The text a consumer reads through a pointer variable. -/
def Store.read (st : Store) (x : String) : Option String :=
  (st.target x).map cstr

/-- The names a store exposes. -/
def Store.names (st : Store) : List String := st.vars.map (fun v => v.1)

/-- The declarations of all units of a binary. -/
def allDecls : List (List Decl) → List Decl
  | [] => []
  | u :: us => u ++ allDecls us

/-- A consumer unit whose text is `src` is built into a binary of its own and
its static storage initialised. -/
def buildAndLoad (env : List String) (src : List Line) : Except BuildError Store :=
  match build env [src] with
  | .error e => .error e
  | .ok units => .ok (load (allDecls units))

/-- The array the consumer finds behind the name `x`. -/
def pointee (env : List String) (src : List Line) (x : String) :
    Except BuildError (Option (List Char)) :=
  match buildAndLoad env src with
  | .error e => .error e
  | .ok st => .ok (st.target x)

/-- The text the consumer reads from the name `x`. -/
def readConst (env : List String) (src : List Line) (x : String) :
    Except BuildError (Option String) :=
  match buildAndLoad env src with
  | .error e => .error e
  | .ok st => .ok (st.read x)

/-- The names the consumer gets from the unit. -/
def exposedNames (env : List String) (src : List Line) : Except BuildError (List String) :=
  match buildAndLoad env src with
  | .error e => .error e
  | .ok st => .ok st.names

/-! ## Consumer statements that could change a constant -/

/-- The two statements by which a consumer could change what a name of the
header yields: `x = "lit";` and `x[i] = c;`. -/
inductive Stmt where
  | assign (x : String) (lit : String)
  | store (x : String) (i : Nat) (c : Char)
  deriving DecidableEq, Repr

/-- The declared type of a name. -/
def typeOf (ds : List Decl) (x : String) : Option CType :=
  (ds.find? (fun d => d.name = x)).map (fun d => d.ty)

/-- Type check of a statement: the left operand of an assignment must be a
modifiable lvalue, that is, its type must not be const-qualified. For
`x = "lit"` the operand is `x` itself (and the literal must convert to the type
of `x`); for `x[i] = c` it is the pointee of `x`. -/
def stmtOk (ds : List Decl) : Stmt → Bool
  | .assign x _ =>
      match typeOf ds x with
      | some ty => !ty.isConst && initOk ty
      | none => false
  | .store x _ _ =>
      match typeOf ds x with
      | some (.ptr (.char false) _) => true
      | _ => false

/-- Replace the element at index `k`. -/
def updateAt (f : List Char → List Char) : Nat → List (List Char) → List (List Char)
  | _, [] => []
  | 0, a :: as => f a :: as
  | k + 1, a :: as => a :: updateAt f k as

/-- Execute a statement. -/
def exec (st : Store) : Stmt → Store
  | .assign x lit =>
      ⟨st.lits ++ [litArray lit],
       st.vars.map (fun v => if v.1 = x then (x, st.lits.length) else v)⟩
  | .store x i c =>
      match st.vars.lookup x with
      | none => st
      | some k => ⟨updateAt (fun a => a.set i c) k st.lits, st.vars⟩

/-- Execute the statements of a consumer in order. -/
def run (st : Store) (prog : List Stmt) : Store := prog.foldl exec st

/-- Every statement of the consumer passes the type check. -/
def progOk (ds : List Decl) (prog : List Stmt) : Bool := prog.all (stmtOk ds)

/-- The definition of `ssid` in the header. -/
def ssidDecl (s : String) : Decl := ⟨constCharPtr, "ssid", s⟩

/-- The definition of `password` in the header. -/
def passwordDecl (p : String) : Decl := ⟨constCharPtr, "password", p⟩

/-- The store of a consumer of the header right after static initialisation. -/
def initialStore (s p : String) : Store := load [ssidDecl s, passwordDecl p]

/-! ## Lemmas on preprocessing the header -/

theorem ppLines_append (st : PP) (a b : List Line) :
    ppLines st (a ++ b) =
      match ppLines st a with
      | .error e => .error e
      | .ok st1 => ppLines st1 b := by
  induction a generalizing st with
  | nil => simp [ppLines]
  | cons l ls ih =>
      simp only [List.cons_append, ppLines]
      cases ppLine st l with
      | error e => rfl
      | ok st1 => exact ih st1

/-- First inclusion: the guard is not yet defined, both definitions pass and
the guard becomes defined. -/
theorem ppLines_header_first (s p : String) (env : List String) (out : List Decl)
    (h : WIFI_H_ ∉ env) :
    ppLines ⟨env, [], out⟩ (wifi_h s p) =
      .ok ⟨WIFI_H_ :: env, [], out ++ [ssidDecl s, passwordDecl p]⟩ := by
  simp [wifi_h, ppLines, ppLine, PP.active, h, ssidDecl, passwordDecl]

/-- Later inclusion: the guard is defined, the whole header is skipped. -/
theorem ppLines_header_again (s p : String) (env : List String) (out : List Decl)
    (h : WIFI_H_ ∈ env) :
    ppLines ⟨env, [], out⟩ (wifi_h s p) = .ok ⟨env, [], out⟩ := by
  simp [wifi_h, ppLines, ppLine, PP.active, h]

theorem ppLines_includeTimes_again (s p : String) (env : List String) (out : List Decl)
    (h : WIFI_H_ ∈ env) (n : Nat) :
    ppLines ⟨env, [], out⟩ (includeTimes (wifi_h s p) n) = .ok ⟨env, [], out⟩ := by
  induction n with
  | zero => rfl
  | succ n ih =>
      rw [includeTimes, ppLines_append, ppLines_header_again s p env out h]
      exact ih

theorem ppLines_includeTimes_first (s p : String) (env : List String) (out : List Decl)
    (h : WIFI_H_ ∉ env) (n : Nat) :
    ppLines ⟨env, [], out⟩ (includeTimes (wifi_h s p) (n + 1)) =
      .ok ⟨WIFI_H_ :: env, [], out ++ [ssidDecl s, passwordDecl p]⟩ := by
  rw [includeTimes, ppLines_append, ppLines_header_first s p env out h]
  exact ppLines_includeTimes_again s p (WIFI_H_ :: env) _ (List.mem_cons_self _ _) n

theorem includeTimes_one (hdr : List Line) : includeTimes hdr 1 = hdr := by
  simp [includeTimes]

theorem preprocess_includeTimes_first (s p : String) (env : List String)
    (h : WIFI_H_ ∉ env) (n : Nat) :
    preprocess env (includeTimes (wifi_h s p) (n + 1)) =
      .ok [ssidDecl s, passwordDecl p] := by
  simp [preprocess, ppLines_includeTimes_first s p env [] h n]

theorem preprocess_includeTimes_again (s p : String) (env : List String)
    (h : WIFI_H_ ∈ env) (n : Nat) :
    preprocess env (includeTimes (wifi_h s p) n) = .ok [] := by
  simp [preprocess, ppLines_includeTimes_again s p env [] h n]

theorem compileUnit_includeTimes_first (s p : String) (env : List String)
    (h : WIFI_H_ ∉ env) (n : Nat) :
    compileUnit env (includeTimes (wifi_h s p) (n + 1)) =
      .ok [ssidDecl s, passwordDecl p] := by
  simp [compileUnit, preprocess_includeTimes_first s p env h n, ssidDecl, passwordDecl,
    constCharPtr, initOk, firstDup]

theorem compileUnit_header (s p : String) (env : List String) (h : WIFI_H_ ∉ env) :
    compileUnit env (wifi_h s p) = .ok [ssidDecl s, passwordDecl p] := by
  have := compileUnit_includeTimes_first s p env h 0
  rwa [includeTimes_one] at this

/-! ## Lemmas on building and loading -/

theorem compileUnit_header_defined (s p : String) (env : List String) (h : WIFI_H_ ∈ env) :
    compileUnit env (wifi_h s p) = .ok [] := by
  have := preprocess_includeTimes_again s p env h 1
  rw [includeTimes_one] at this
  simp [compileUnit, this, firstDup]

theorem externalOf_header (s p : String) :
    externalOf [ssidDecl s, passwordDecl p] = [ssidDecl s, passwordDecl p] := by
  simp [externalOf, linkage, ssidDecl, passwordDecl, constCharPtr, CType.isConst]

theorem externalDefs_replicate (s p : String) (n : Nat) :
    externalDefs (List.replicate (n + 1) [ssidDecl s, passwordDecl p]) =
      "ssid" :: "password" :: externalDefs (List.replicate n [ssidDecl s, passwordDecl p]) := by
  rw [List.replicate_succ, externalDefs, externalOf_header]
  rfl

theorem externalCount_replicate (s p : String) (n : Nat) :
    externalCount "ssid" (List.replicate n [ssidDecl s, passwordDecl p]) = n ∧
    externalCount "password" (List.replicate n [ssidDecl s, passwordDecl p]) = n := by
  induction n with
  | zero => simp [externalCount, externalDefs]
  | succ n ih =>
      obtain ⟨h1, h2⟩ := ih
      unfold externalCount at h1 h2 ⊢
      rw [externalDefs_replicate]
      constructor
      · rw [List.count_cons_self, List.count_cons_of_ne (by decide), h1]
      · rw [List.count_cons_of_ne (by decide), List.count_cons_self, h2]

theorem compileAll_replicate (s p : String) (env : List String) (h : WIFI_H_ ∉ env) (n : Nat) :
    compileAll env (unitsIncluding (wifi_h s p) n) =
      .ok (List.replicate n [ssidDecl s, passwordDecl p]) := by
  induction n with
  | zero => rfl
  | succ n ih =>
      unfold unitsIncluding at ih ⊢
      simp only [List.replicate_succ, compileAll, compileUnit_header s p env h, ih]

theorem build_single (s p : String) (env : List String) (h : WIFI_H_ ∉ env) :
    build env [wifi_h s p] = .ok [[ssidDecl s, passwordDecl p]] := by
  have hc := compileAll_replicate s p env h 1
  simp only [unitsIncluding, List.replicate_succ, List.replicate_zero] at hc
  have hd : firstDup (externalDefs [[ssidDecl s, passwordDecl p]]) = none := by
    rw [externalDefs, externalOf_header]
    rfl
  simp only [build, hc, link, hd]

theorem build_single_defined (s p : String) (env : List String) (h : WIFI_H_ ∈ env) :
    build env [wifi_h s p] = .ok [[]] := by
  simp [build, compileAll, compileUnit_header_defined s p env h, link, externalDefs,
    externalOf, firstDup]

theorem initialStore_eq (s p : String) :
    initialStore s p = ⟨[litArray s, litArray p], [("ssid", 0), ("password", 1)]⟩ := by
  rfl

theorem buildAndLoad_header (s p : String) (env : List String) (h : WIFI_H_ ∉ env) :
    buildAndLoad env (wifi_h s p) = .ok (initialStore s p) := by
  simp [buildAndLoad, build_single s p env h, allDecls, initialStore]

theorem buildAndLoad_header_defined (s p : String) (env : List String) (h : WIFI_H_ ∈ env) :
    buildAndLoad env (wifi_h s p) = .ok ⟨[], []⟩ := by
  simp [buildAndLoad, build_single_defined s p env h, allDecls, load]

theorem target_ssid (s p : String) : (initialStore s p).target "ssid" = some (litArray s) := by
  rfl

theorem target_password (s p : String) :
    (initialStore s p).target "password" = some (litArray p) := by
  rfl

/-- Reading a literal's array as a C string gives the literal back when the
literal holds no null character. -/
theorem cstr_litArray (s : String) (h : NUL ∉ s.toList) : cstr (litArray s) = s := by
  have h1 : ∀ c ∈ s.toList, decide (c ≠ NUL) = true := by
    intro c hc
    simp only [decide_eq_true_eq]
    intro hEq
    exact h (hEq ▸ hc)
  unfold cstr litArray
  rw [List.takeWhile_append_of_pos h1]
  simp

theorem pointee_header (s p : String) (env : List String) (h : WIFI_H_ ∉ env) :
    pointee env (wifi_h s p) "ssid" = .ok (some (litArray s)) ∧
    pointee env (wifi_h s p) "password" = .ok (some (litArray p)) := by
  simp [pointee, buildAndLoad_header s p env h, target_ssid, target_password]

theorem readConst_header (s p : String) (env : List String) (h : WIFI_H_ ∉ env) :
    readConst env (wifi_h s p) "ssid" = .ok (some (cstr (litArray s))) ∧
    readConst env (wifi_h s p) "password" = .ok (some (cstr (litArray p))) := by
  simp [readConst, buildAndLoad_header s p env h, Store.read, target_ssid, target_password]

theorem readConst_header_defined (s p : String) (env : List String) (h : WIFI_H_ ∈ env)
    (x : String) : readConst env (wifi_h s p) x = .ok none := by
  simp [readConst, buildAndLoad_header_defined s p env h, Store.read, Store.target]

/-! ## Lemmas on consumer statements -/

/-- No store through a name of the header passes the type check: both pointees
are `const char`. -/
theorem stmtOk_store (s p x : String) (i : Nat) (c : Char) :
    stmtOk [ssidDecl s, passwordDecl p] (.store x i c) = false := by
  by_cases h1 : "ssid" = x <;> by_cases h2 : "password" = x <;>
    simp [stmtOk, typeOf, List.find?, ssidDecl, passwordDecl, constCharPtr, h1, h2]

/-- Assigning a string literal to either name passes the type check: neither
pointer is itself const. -/
theorem stmtOk_assign (s p lit : String) :
    stmtOk [ssidDecl s, passwordDecl p] (.assign "ssid" lit) = true ∧
    stmtOk [ssidDecl s, passwordDecl p] (.assign "password" lit) = true := by
  constructor <;> rfl

theorem progOk_assigns (s p : String) (prog : List Stmt)
    (h : progOk [ssidDecl s, passwordDecl p] prog = true) :
    ∀ st ∈ prog, ∃ x lit, st = Stmt.assign x lit := by
  intro st hst
  have hok : stmtOk [ssidDecl s, passwordDecl p] st = true := by
    unfold progOk at h
    exact (List.all_eq_true.mp h) st hst
  cases st with
  | assign x lit => exact ⟨x, lit, rfl⟩
  | store x i c => rw [stmtOk_store] at hok; cases hok

theorem exec_assign (a b : List Char) (rest : List (List Char)) (k1 k2 : Nat)
    (x lit : String) :
    exec ⟨a :: b :: rest, [("ssid", k1), ("password", k2)]⟩ (.assign x lit) =
      ⟨a :: b :: (rest ++ [litArray lit]),
        [("ssid", if x = "ssid" then rest.length + 2 else k1),
         ("password", if x = "password" then rest.length + 2 else k2)]⟩ := by
  by_cases h1 : x = "ssid"
  · subst h1
    simp [exec]
  · by_cases h2 : x = "password"
    · subst h2
      simp [exec]
    · have h1' : ¬ "ssid" = x := fun h => h1 h.symm
      have h2' : ¬ "password" = x := fun h => h2 h.symm
      simp [exec, h1, h2, h1', h2']

theorem run_assigns (a b : List Char) (prog : List Stmt) :
    ∀ (rest : List (List Char)) (k1 k2 : Nat),
      (∀ st ∈ prog, ∃ x lit, st = Stmt.assign x lit) →
      ∃ rest1 j1 j2,
        run ⟨a :: b :: rest, [("ssid", k1), ("password", k2)]⟩ prog =
          ⟨a :: b :: rest1, [("ssid", j1), ("password", j2)]⟩ ∧
        ((∀ lit, Stmt.assign "ssid" lit ∉ prog) → j1 = k1) ∧
        ((∀ lit, Stmt.assign "password" lit ∉ prog) → j2 = k2) := by
  induction prog with
  | nil =>
      intro rest k1 k2 _
      exact ⟨rest, k1, k2, rfl, fun _ => rfl, fun _ => rfl⟩
  | cons st prog ih =>
      intro rest k1 k2 hall
      obtain ⟨x, lit, rfl⟩ := hall st (List.mem_cons_self _ _)
      have hrest : ∀ st ∈ prog, ∃ x lit, st = Stmt.assign x lit :=
        fun st hst => hall st (List.mem_cons_of_mem _ hst)
      obtain ⟨rest1, j1, j2, hrun, hs, hp⟩ := ih (rest ++ [litArray lit])
        (if x = "ssid" then rest.length + 2 else k1)
        (if x = "password" then rest.length + 2 else k2) hrest
      refine ⟨rest1, j1, j2, ?_, ?_, ?_⟩
      · simp only [run, List.foldl_cons] at hrun ⊢
        rw [exec_assign]
        exact hrun
      · intro hno
        have hx : x ≠ "ssid" := by
          intro hx
          exact hno lit (hx ▸ List.mem_cons_self _ _)
        rw [hs (fun l hl => hno l (List.mem_cons_of_mem _ hl)), if_neg hx]
      · intro hno
        have hx : x ≠ "password" := by
          intro hx
          exact hno lit (hx ▸ List.mem_cons_self _ _)
        rw [hp (fun l hl => hno l (List.mem_cons_of_mem _ hl)), if_neg hx]

theorem run_initialStore (s p : String) (prog : List Stmt)
    (h : progOk [ssidDecl s, passwordDecl p] prog = true) :
    ∃ rest1 j1 j2,
      run (initialStore s p) prog =
        ⟨litArray s :: litArray p :: rest1, [("ssid", j1), ("password", j2)]⟩ ∧
      ((∀ lit, Stmt.assign "ssid" lit ∉ prog) → j1 = 0) ∧
      ((∀ lit, Stmt.assign "password" lit ∉ prog) → j2 = 1) := by
  rw [initialStore_eq]
  exact run_assigns (litArray s) (litArray p) prog [] 0 1 (progOk_assigns s p prog h)

theorem pointee_header_defined (s p : String) (env : List String) (h : WIFI_H_ ∈ env)
    (x : String) : pointee env (wifi_h s p) x = .ok none := by
  simp [pointee, buildAndLoad_header_defined s p env h, Store.target]

theorem exposedNames_header (s p : String) (env : List String) (h : WIFI_H_ ∉ env) :
    exposedNames env (wifi_h s p) = .ok ["ssid", "password"] := by
  simp only [exposedNames, buildAndLoad_header s p env h]
  rfl

theorem build_two_or_more (s p : String) (env : List String) (h : WIFI_H_ ∉ env) (m : Nat) :
    build env (unitsIncluding (wifi_h s p) (m + 2)) = .error (.duplicateSymbol "ssid") := by
  have hd : firstDup (externalDefs (List.replicate (m + 2) [ssidDecl s, passwordDecl p])) =
      some "ssid" := by
    rw [externalDefs_replicate, externalDefs_replicate]
    simp [firstDup]
  simp only [build, compileAll_replicate s p env h (m + 2), link, hd]

/-! ## The claims -/

/-- C1: a consumer that includes the header (its guard not defined beforehand)
finds behind `ssid` and `password` arrays holding exactly the characters of the
literals `s` and `p`, in order, followed by the terminating null; the unit
exposes the two names `ssid` and `password` and no other; read as C strings the
constants give `s` and `p` back for literals without an embedded null, in
particular "HomeNetwork" and "s3cr3t!", and "YourSSID" and "YourPassword" for
the file as shipped. -/
theorem C1_constants_read_back (s p : String) (env : List String) (h : WIFI_H_ ∉ env) :
    pointee env (wifi_h s p) "ssid" = .ok (some (s.toList ++ [NUL])) ∧
    pointee env (wifi_h s p) "password" = .ok (some (p.toList ++ [NUL])) ∧
    exposedNames env (wifi_h s p) = .ok ["ssid", "password"] ∧
    (NUL ∉ s.toList → readConst env (wifi_h s p) "ssid" = .ok (some s)) ∧
    (NUL ∉ p.toList → readConst env (wifi_h s p) "password" = .ok (some p)) ∧
    readConst env (wifi_h "HomeNetwork" "s3cr3t!") "ssid" = .ok (some "HomeNetwork") ∧
    readConst env (wifi_h "HomeNetwork" "s3cr3t!") "password" = .ok (some "s3cr3t!") ∧
    readConst env shipped "ssid" = .ok (some "YourSSID") ∧
    readConst env shipped "password" = .ok (some "YourPassword") := by
  have hr := readConst_header
  refine ⟨(pointee_header s p env h).1, (pointee_header s p env h).2,
    exposedNames_header s p env h, ?_, ?_, ?_, ?_, ?_, ?_⟩
  · intro hs
    rw [(hr s p env h).1, cstr_litArray s hs]
  · intro hp
    rw [(hr s p env h).2, cstr_litArray p hp]
  · rw [(hr _ _ env h).1]; rfl
  · rw [(hr _ _ env h).2]; rfl
  · unfold shipped; rw [(hr _ _ env h).1]; rfl
  · unfold shipped; rw [(hr _ _ env h).2]; rfl

/-- C1 at the spec's scenario, in a unit that defines another identifier. -/
theorem C1_constants_read_back_witness :
    WIFI_H_ ∉ ["ARDUINO"] ∧ NUL ∉ "HomeNetwork".toList ∧ NUL ∉ "s3cr3t!".toList ∧
    readConst ["ARDUINO"] (wifi_h "HomeNetwork" "s3cr3t!") "ssid" = .ok (some "HomeNetwork") ∧
    readConst ["ARDUINO"] (wifi_h "HomeNetwork" "s3cr3t!") "password" = .ok (some "s3cr3t!") ∧
    exposedNames ["ARDUINO"] (wifi_h "HomeNetwork" "s3cr3t!") = .ok ["ssid", "password"] :=
  ⟨by decide, by decide, by decide,
    (C1_constants_read_back "HomeNetwork" "s3cr3t!" ["ARDUINO"] (by decide)).2.2.2.1 (by decide),
    (C1_constants_read_back "HomeNetwork" "s3cr3t!" ["ARDUINO"] (by decide)).2.2.2.2.1
      (by decide),
    (C1_constants_read_back "HomeNetwork" "s3cr3t!" ["ARDUINO"] (by decide)).2.2.1⟩

/-- C2, as stated, fails for two units: each of the two units that include the
shipped header compiles to its own definitions of `ssid` and `password`, both
with external linkage, so the binary holds two external definitions of each
name and the link fails with a duplicate definition of `ssid`. -/
theorem C2_counterexample :
    compileAll [] (unitsIncluding shipped 2) =
      .ok [[ssidDecl "YourSSID", passwordDecl "YourPassword"],
           [ssidDecl "YourSSID", passwordDecl "YourPassword"]] ∧
    linkage (ssidDecl "YourSSID") = .external ∧
    linkage (passwordDecl "YourPassword") = .external ∧
    externalCount "ssid" [[ssidDecl "YourSSID", passwordDecl "YourPassword"],
      [ssidDecl "YourSSID", passwordDecl "YourPassword"]] = 2 ∧
    externalCount "password" [[ssidDecl "YourSSID", passwordDecl "YourPassword"],
      [ssidDecl "YourSSID", passwordDecl "YourPassword"]] = 2 ∧
    build [] (unitsIncluding shipped 2) = .error (.duplicateSymbol "ssid") :=
  ⟨by rfl, by rfl, by rfl, by rfl, by rfl, by rfl⟩

/-- C2 (amended): `n` units that each include the header (its guard not defined
beforehand) each compile to one definition of `ssid` and one of `password`
with external linkage, so together they hold exactly `n` external definitions
of each name; the link succeeds for `n ≤ 1` and fails with a duplicate
definition for every `n ≥ 2`. -/
theorem C2_one_external_definition_per_unit (s p : String) (env : List String)
    (h : WIFI_H_ ∉ env) (n : Nat) :
    compileAll env (unitsIncluding (wifi_h s p) n) =
      .ok (List.replicate n [ssidDecl s, passwordDecl p]) ∧
    linkage (ssidDecl s) = .external ∧ linkage (passwordDecl p) = .external ∧
    externalCount "ssid" (List.replicate n [ssidDecl s, passwordDecl p]) = n ∧
    externalCount "password" (List.replicate n [ssidDecl s, passwordDecl p]) = n ∧
    (n ≤ 1 → build env (unitsIncluding (wifi_h s p) n) =
      .ok (List.replicate n [ssidDecl s, passwordDecl p])) ∧
    (2 ≤ n → build env (unitsIncluding (wifi_h s p) n) =
      .error (.duplicateSymbol "ssid")) := by
  refine ⟨compileAll_replicate s p env h n, rfl, rfl, (externalCount_replicate s p n).1,
    (externalCount_replicate s p n).2, ?_, ?_⟩
  · intro hn
    match n, hn with
    | 0, _ => rfl
    | 1, _ => exact build_single s p env h
  · intro hn
    obtain ⟨m, rfl⟩ : ∃ m, n = m + 2 := ⟨n - 2, by omega⟩
    exact build_two_or_more s p env h m

/-- C2 (amended) at three units of the shipped header. -/
theorem C2_one_external_definition_per_unit_witness :
    WIFI_H_ ∉ ([] : List String) ∧ 2 ≤ 3 ∧
    externalCount "ssid"
      (List.replicate 3 [ssidDecl "YourSSID", passwordDecl "YourPassword"]) = 3 ∧
    build [] (unitsIncluding (wifi_h "YourSSID" "YourPassword") 3) =
      .error (.duplicateSymbol "ssid") :=
  ⟨by decide, by decide,
    (C2_one_external_definition_per_unit "YourSSID" "YourPassword" [] (by decide) 3).2.2.2.1,
    (C2_one_external_definition_per_unit "YourSSID" "YourPassword" [] (by decide) 3).2.2.2.2.2.2
      (by decide)⟩

/-- C3, as stated, fails: the statement `ssid = "Other";` passes the type check
(the pointer `ssid` is not const), and after it `ssid` no longer yields its
initial literal. -/
theorem C3_counterexample :
    (ssidDecl "YourSSID").ty.isConst = false ∧
    progOk [ssidDecl "YourSSID", passwordDecl "YourPassword"] [.assign "ssid" "Other"] = true ∧
    (run (initialStore "YourSSID" "YourPassword") [.assign "ssid" "Other"]).read "ssid" =
      some "Other" ∧
    (run (initialStore "YourSSID" "YourPassword") [.assign "ssid" "Other"]).read "ssid" ≠
      some "YourSSID" :=
  ⟨by decide, by decide, by decide, by decide⟩

/-- C3 (amended): the characters pointed to are read-only and the names are
not. In a consumer whose statements pass the type check no statement stores
through `ssid` or `password` (the type check rejects every such store), so the
two literal arrays keep their initial characters in every reachable state;
assignment of another literal to either name is admitted by the declared type
`const char*`; and a name the consumer does not assign to still points to its
initial literal. -/
theorem C3_characters_read_only (s p : String) (prog : List Stmt)
    (h : progOk [ssidDecl s, passwordDecl p] prog = true) :
    (∀ x i c, stmtOk [ssidDecl s, passwordDecl p] (.store x i c) = false) ∧
    (∀ x i c, Stmt.store x i c ∉ prog) ∧
    (∀ lit, stmtOk [ssidDecl s, passwordDecl p] (.assign "ssid" lit) = true ∧
      stmtOk [ssidDecl s, passwordDecl p] (.assign "password" lit) = true) ∧
    (run (initialStore s p) prog).lits.take 2 = [s.toList ++ [NUL], p.toList ++ [NUL]] ∧
    ((∀ lit, Stmt.assign "ssid" lit ∉ prog) →
      (run (initialStore s p) prog).target "ssid" = some (s.toList ++ [NUL])) ∧
    ((∀ lit, Stmt.assign "password" lit ∉ prog) →
      (run (initialStore s p) prog).target "password" = some (p.toList ++ [NUL])) := by
  obtain ⟨rest1, j1, j2, hrun, hs, hp⟩ := run_initialStore s p prog h
  refine ⟨stmtOk_store s p, ?_, stmtOk_assign s p, ?_, ?_, ?_⟩
  · intro x i c hmem
    obtain ⟨y, lit, hEq⟩ := progOk_assigns s p prog h _ hmem
    cases hEq
  · rw [hrun]
    rfl
  · intro hno
    rw [hrun, hs hno]
    rfl
  · intro hno
    rw [hrun, hp hno]
    have hne : ("password" == "ssid") = false := by decide
    simp [Store.target, List.lookup, hne, litArray]

/-- C3 (amended) for a consumer that reassigns `password` only: `ssid` still
points to its initial literal. -/
theorem C3_characters_read_only_witness :
    progOk [ssidDecl "YourSSID", passwordDecl "YourPassword"]
      [.assign "password" "Changed"] = true ∧
    (∀ lit, Stmt.assign "ssid" lit ∉ [Stmt.assign "password" "Changed"]) ∧
    (run (initialStore "YourSSID" "YourPassword") [.assign "password" "Changed"]).target "ssid" =
      some ("YourSSID".toList ++ [NUL]) :=
  ⟨by decide, by simp,
    (C3_characters_read_only "YourSSID" "YourPassword" [.assign "password" "Changed"]
      (by decide)).2.2.2.2.1 (by simp)⟩

/-- C4: for every `n ≥ 1`, preprocessing (and compiling) a unit made of `n`
consecutive inclusions of the header gives the same result as one inclusion;
when the guard is not defined beforehand that result is exactly one definition
of `ssid` and one of `password`, and the unit compiles without a redefinition
error. -/
theorem C4_reinclusion_idempotent (s p : String) (env : List String) (n : Nat) (hn : 1 ≤ n) :
    preprocess env (includeTimes (wifi_h s p) n) =
      preprocess env (includeTimes (wifi_h s p) 1) ∧
    compileUnit env (includeTimes (wifi_h s p) n) =
      compileUnit env (includeTimes (wifi_h s p) 1) ∧
    (WIFI_H_ ∉ env →
      compileUnit env (includeTimes (wifi_h s p) n) = .ok [ssidDecl s, passwordDecl p] ∧
      defCount "ssid" [ssidDecl s, passwordDecl p] = 1 ∧
      defCount "password" [ssidDecl s, passwordDecl p] = 1) := by
  obtain ⟨m, rfl⟩ : ∃ m, n = m + 1 := ⟨n - 1, by omega⟩
  have hpre : preprocess env (includeTimes (wifi_h s p) (m + 1)) =
      preprocess env (includeTimes (wifi_h s p) 1) := by
    by_cases h : WIFI_H_ ∈ env
    · rw [preprocess_includeTimes_again s p env h, preprocess_includeTimes_again s p env h]
    · rw [preprocess_includeTimes_first s p env h m, preprocess_includeTimes_first s p env h 0]
  refine ⟨hpre, ?_, ?_⟩
  · unfold compileUnit
    rw [hpre]
  · intro h
    exact ⟨compileUnit_includeTimes_first s p env h m, by rfl, by rfl⟩

/-- C4 for the shipped header included twice. -/
theorem C4_reinclusion_idempotent_witness :
    1 ≤ 2 ∧ WIFI_H_ ∉ ([] : List String) ∧
    compileUnit [] (includeTimes (wifi_h "YourSSID" "YourPassword") 2) =
      compileUnit [] (includeTimes (wifi_h "YourSSID" "YourPassword") 1) ∧
    compileUnit [] (includeTimes (wifi_h "YourSSID" "YourPassword") 2) =
      .ok [ssidDecl "YourSSID", passwordDecl "YourPassword"] :=
  ⟨by decide, by decide,
    (C4_reinclusion_idempotent "YourSSID" "YourPassword" [] 2 (by decide)).2.1,
    ((C4_reinclusion_idempotent "YourSSID" "YourPassword" [] 2 (by decide)).2.2
      (by decide)).1⟩

/-- C5: a binary of exactly one unit that includes the header (its guard not
defined beforehand) compiles and links; the unit holds exactly one definition
of `ssid` and one of `password`, each a well-typed initialisation of a
`const char*` by a string literal, and no name has more than one external
definition in the binary. -/
theorem C5_single_unit_builds (s p : String) (env : List String) (h : WIFI_H_ ∉ env) :
    build env (unitsIncluding (wifi_h s p) 1) = .ok [[ssidDecl s, passwordDecl p]] ∧
    defCount "ssid" [ssidDecl s, passwordDecl p] = 1 ∧
    defCount "password" [ssidDecl s, passwordDecl p] = 1 ∧
    (ssidDecl s).ty = constCharPtr ∧ initOk (ssidDecl s).ty = true ∧
    (passwordDecl p).ty = constCharPtr ∧ initOk (passwordDecl p).ty = true ∧
    (ssidDecl s).init = s ∧ (passwordDecl p).init = p ∧
    ∀ x, externalCount x [[ssidDecl s, passwordDecl p]] ≤ 1 := by
  refine ⟨build_single s p env h, by rfl, by rfl, rfl, rfl, rfl, rfl, rfl, rfl, ?_⟩
  intro x
  unfold externalCount
  rw [externalDefs, externalOf_header]
  have hne : ("ssid" : String) ≠ "password" := by decide
  by_cases h1 : x = "ssid"
  · subst h1
    simp [externalDefs, ssidDecl, passwordDecl]
  · by_cases h2 : x = "password"
    · subst h2
      simp [externalDefs, ssidDecl, passwordDecl]
    · have h1' : ¬ "ssid" = x := fun e => h1 e.symm
      have h2' : ¬ "password" = x := fun e => h2 e.symm
      simp [externalDefs, ssidDecl, passwordDecl, List.count_cons, h1', h2']

/-- C5 for the shipped header. -/
theorem C5_single_unit_builds_witness :
    WIFI_H_ ∉ ([] : List String) ∧
    build [] (unitsIncluding shipped 1) =
      .ok [[ssidDecl "YourSSID", passwordDecl "YourPassword"]] :=
  ⟨by decide, (C5_single_unit_builds "YourSSID" "YourPassword" [] (by decide)).1⟩

/-- C6: the header validates nothing. For every pair of literals, the empty one
included, a unit that includes the header builds without error whatever
identifiers are defined beforehand; with the guard not defined beforehand the
definitions carry the literals as written, and the module exposes them: for
every `s` and `p` the consumer finds behind `ssid` and `password` the arrays
holding exactly the characters of `s` and of `p` followed by the terminating
null, and reads `s` and `p` back as C strings when they hold no embedded null;
in particular an empty `ssid` (or `password`) is exposed as the empty string,
an array that holds only the terminating null. -/
theorem C6_no_validation (s p : String) (env : List String) :
    (∃ st, buildAndLoad env (wifi_h s p) = .ok st) ∧
    (WIFI_H_ ∉ env →
      compileUnit env (wifi_h s p) = .ok [⟨constCharPtr, "ssid", s⟩,
        ⟨constCharPtr, "password", p⟩] ∧
      pointee env (wifi_h "" p) "ssid" = .ok (some [NUL]) ∧
      readConst env (wifi_h "" p) "ssid" = .ok (some "") ∧
      pointee env (wifi_h s "") "password" = .ok (some [NUL]) ∧
      readConst env (wifi_h s "") "password" = .ok (some "") ∧
      buildAndLoad env (wifi_h s p) =
        .ok ⟨[s.toList ++ [NUL], p.toList ++ [NUL]], [("ssid", 0), ("password", 1)]⟩ ∧
      pointee env (wifi_h s p) "ssid" = .ok (some (s.toList ++ [NUL])) ∧
      pointee env (wifi_h s p) "password" = .ok (some (p.toList ++ [NUL])) ∧
      (NUL ∉ s.toList → readConst env (wifi_h s p) "ssid" = .ok (some s)) ∧
      (NUL ∉ p.toList → readConst env (wifi_h s p) "password" = .ok (some p))) := by
  constructor
  · by_cases h : WIFI_H_ ∈ env
    · exact ⟨_, buildAndLoad_header_defined s p env h⟩
    · exact ⟨_, buildAndLoad_header s p env h⟩
  · intro h
    refine ⟨compileUnit_header s p env h, ?_, ?_, ?_, ?_, ?_,
      (pointee_header s p env h).1, (pointee_header s p env h).2, ?_, ?_⟩
    · rw [(pointee_header "" p env h).1]; rfl
    · rw [(readConst_header "" p env h).1]; rfl
    · rw [(pointee_header s "" env h).2]; rfl
    · rw [(readConst_header s "" env h).2]; rfl
    · rw [buildAndLoad_header s p env h, initialStore_eq]; rfl
    · intro hs
      rw [(readConst_header s p env h).1, cstr_litArray s hs]
    · intro hp
      rw [(readConst_header s p env h).2, cstr_litArray p hp]

/-- C6 for an empty `ssid` next to the shipped password: the empty literal is
read back as the empty string and the non-empty one unchanged. -/
theorem C6_no_validation_witness :
    WIFI_H_ ∉ ([] : List String) ∧ NUL ∉ "YourPassword".toList ∧
    readConst [] (wifi_h "" "YourPassword") "ssid" = .ok (some "") ∧
    compileUnit [] (wifi_h "" "YourPassword") =
      .ok [⟨constCharPtr, "ssid", ""⟩, ⟨constCharPtr, "password", "YourPassword"⟩] ∧
    pointee [] (wifi_h "" "YourPassword") "password" =
      .ok (some ("YourPassword".toList ++ [NUL])) ∧
    readConst [] (wifi_h "" "YourPassword") "password" = .ok (some "YourPassword") :=
  ⟨by decide, by decide,
    ((C6_no_validation "" "YourPassword" []).2 (by decide)).2.2.1,
    ((C6_no_validation "" "YourPassword" []).2 (by decide)).1,
    ((C6_no_validation "" "YourPassword" []).2 (by decide)).2.2.2.2.2.2.2.1,
    ((C6_no_validation "" "YourPassword" []).2 (by decide)).2.2.2.2.2.2.2.2.2 (by decide)⟩

/-- C7: the two constants are independent. Two configurations that differ only
in the literal of `ssid` give the same array behind `password` and the same
text read from it, and two that differ only in the literal of `password` give
the same array behind `ssid` and the same text read from it, whatever
identifiers are defined beforehand. -/
theorem C7_constants_independent (env : List String) (s1 s2 p1 p2 : String) :
    pointee env (wifi_h s1 p1) "password" = pointee env (wifi_h s2 p1) "password" ∧
    readConst env (wifi_h s1 p1) "password" = readConst env (wifi_h s2 p1) "password" ∧
    pointee env (wifi_h s1 p1) "ssid" = pointee env (wifi_h s1 p2) "ssid" ∧
    readConst env (wifi_h s1 p1) "ssid" = readConst env (wifi_h s1 p2) "ssid" := by
  by_cases h : WIFI_H_ ∈ env
  · simp only [pointee_header_defined _ _ env h, readConst_header_defined _ _ env h,
      and_self]
  · refine ⟨?_, ?_, ?_, ?_⟩
    · rw [(pointee_header s1 p1 env h).2, (pointee_header s2 p1 env h).2]
    · rw [(readConst_header s1 p1 env h).2, (readConst_header s2 p1 env h).2]
    · rw [(pointee_header s1 p1 env h).1, (pointee_header s1 p2 env h).1]
    · rw [(readConst_header s1 p1 env h).1, (readConst_header s1 p2 env h).1]

end Wifi
